import Mathlib

/-!
Verification of the two demonstration notebooks in this repository:
a 3-qubit phase-flip error-correction circuit and a 2-qubit Grover
search circuit, both built as fixed gate sequences on top of a
quantum-circuit simulation library.

The embedding models a circuit as an ordered list of gate-application
records (the data model of the source: gates appended one by one to a
`QuantumCircuit` over a quantum register and an optional classical
register), and gives the gate list its standard state-vector
semantics: a state over `n` qubits is an amplitude function on basis
indices (qubit 0 is the least significant bit, as in qiskit), and each
gate acts linearly on amplitudes.  Since every gate used by the
notebooks (X, H, Z, CX, CZ, CCX) has real entries whose only
irrationality is the Hadamard factor 1/√2, amplitudes are computed in
the field ℚ(√2), represented concretely by pairs of rationals, with
the semantics parametrised over any commutative ring together with an
element `s` playing the role of 1/√2 (characterised by 2·s·s = 1).
-/

namespace QuantumCourse

/-- Gate-application records appended by the notebooks: Pauli X and Z,
Hadamard, controlled-X, controlled-Z, Toffoli (two controls, one
target), and measurement of a qubit into a classical bit. -/
inductive Gate
  | x (q : ℕ)
  | h (q : ℕ)
  | z (q : ℕ)
  | cx (c t : ℕ)
  | cz (a b : ℕ)
  | ccx (c1 c2 t : ℕ)
  | measure (q c : ℕ)
deriving DecidableEq, Repr

/-- A circuit: a quantum register of `numQubits` qubit slots, a
classical register of `numClbits` classical slots, and the ordered
list of gate applications appended to it. -/
structure Circuit where
  numQubits : ℕ
  numClbits : ℕ
  gates : List Gate
deriving DecidableEq, Repr

/-- Append one gate record to a circuit (the `circuit.h(...)`,
`circuit.cx(...)`, ... calls of the source). -/
def addGate (c : Circuit) (g : Gate) : Circuit :=
  { c with gates := c.gates ++ [g] }

/-- Apply the same single-qubit gate constructor to each qubit of a
list in order, as qiskit does for `circuit.h([0,1])` / `circuit.z([0,1])`. -/
def addEach (c : Circuit) (f : ℕ → Gate) (qs : List ℕ) : Circuit :=
  qs.foldl (fun c q => addGate c (f q)) c

/-- Transcription of the phase-flip error-correction circuit of
`src/errorcorrection.ipynb` (first variant, qubit 0 left at |0⟩):
`q = QuantumRegister(3)`, `c = ClassicalRegister(1)`, then
`cx(q0,q1); cx(q0,q2); h(q0); h(q1); h(q2); z(q0); h(q0); h(q1);
h(q2); cx(q0,q1); cx(q0,q2); ccx(q2,q1,q0); measure(q0,c0)`. -/
def phaseFlipCircuit0 : Circuit :=
  { numQubits := 3
    numClbits := 1
    gates := [Gate.cx 0 1, Gate.cx 0 2,
              Gate.h 0, Gate.h 1, Gate.h 2,
              Gate.z 0,
              Gate.h 0, Gate.h 1, Gate.h 2,
              Gate.cx 0 1, Gate.cx 0 2,
              Gate.ccx 2 1 0,
              Gate.measure 0 0] }

/-- Transcription of the second error-correction cell of the notebook:
identical to the first variant except that `circuit.x(q[0])` is applied
first, flipping qubit 0 from |0⟩ to |1⟩ before the encoding step. -/
def phaseFlipCircuit1 : Circuit :=
  { numQubits := 3
    numClbits := 1
    gates := [Gate.x 0,
              Gate.cx 0 1, Gate.cx 0 2,
              Gate.h 0, Gate.h 1, Gate.h 2,
              Gate.z 0,
              Gate.h 0, Gate.h 1, Gate.h 2,
              Gate.cx 0 1, Gate.cx 0 2,
              Gate.ccx 2 1 0,
              Gate.measure 0 0] }

/-- The notebook's `state_prep(circ, qubits)`: apply an H gate to each
qubit in the given list and return the circuit. -/
def state_prep (circ : Circuit) (qubits : List ℕ) : Circuit :=
  qubits.foldl (fun c q => addGate c (Gate.h q)) circ

/-- Transcription of the Grover cells of `src/errorcorrection.ipynb`:
`circuit = QuantumCircuit(2)` (no classical register), then
`state_prep(circuit, [0,1])`, the oracle `circuit.cz(0,1)`, and the
diffusion sequence `circuit.h([0,1]); circuit.z([0,1]);
circuit.cz(0,1); circuit.h([0,1])`. -/
def groverCircuit : Circuit :=
  let c0 : Circuit := { numQubits := 2, numClbits := 0, gates := [] }
  let c1 := state_prep c0 [0, 1]
  let c2 := addGate c1 (Gate.cz 0 1)
  let c3 := addEach c2 Gate.h [0, 1]
  let c4 := addEach c3 Gate.z [0, 1]
  let c5 := addGate c4 (Gate.cz 0 1)
  addEach c5 Gate.h [0, 1]

/-! ## State-vector semantics -/

/-- Bit `q` of the basis-state index `i` (qubit `q` of basis state
`i`, with qubit 0 the least significant bit, qiskit's convention). -/
def nbit (q i : ℕ) : Bool := i / 2 ^ q % 2 == 1

/-- The basis index obtained from `i` by flipping qubit `q`. -/
def flipBit (q i : ℕ) : ℕ :=
  if nbit q i then i - 2 ^ q else i + 2 ^ q

/-- Amplitude-level action of one gate on a state vector, over any
commutative ring `K` with a designated element `s` standing for 1/√2.
A measurement record leaves the amplitude vector unchanged (its
effect is accounted for by the readout distribution below). -/
def applyGate {K : Type} [CommRing K] (s : K) : Gate → (ℕ → K) → (ℕ → K)
  | Gate.x q, v => fun i => v (flipBit q i)
  | Gate.h q, v => fun i =>
      if nbit q i then s * (v (flipBit q i) - v i)
      else s * (v i + v (flipBit q i))
  | Gate.z q, v => fun i => if nbit q i then -v i else v i
  | Gate.cx c t, v => fun i => if nbit c i then v (flipBit t i) else v i
  | Gate.cz a b, v => fun i => if nbit a i && nbit b i then -v i else v i
  | Gate.ccx c1 c2 t, v => fun i =>
      if nbit c1 i && nbit c2 i then v (flipBit t i) else v i
  | Gate.measure _ _, v => v

/-- Run a gate list on an initial amplitude vector. -/
def runGates {K : Type} [CommRing K] (s : K) (gs : List Gate) (v : ℕ → K) : ℕ → K :=
  gs.foldl (fun v g => applyGate s g v) v

/-- The basis state |k⟩: amplitude 1 at index `k`, 0 elsewhere.  All
register qubits start in the zero basis state, so circuits start from
`basisState 0`. -/
def basisState {K : Type} [CommRing K] (k : ℕ) : ℕ → K :=
  fun i => if i = k then 1 else 0

/-- The gate records of a circuit that are unitary gates (everything
except measurements). -/
def isMeasurement : Gate → Bool
  | Gate.measure _ _ => true
  | _ => false

/-- The unitary part of a circuit's gate list: the gate sequence
before/without its measurements. -/
def unitaryPart (c : Circuit) : List Gate :=
  c.gates.filter (fun g => !isMeasurement g)

/-! ## ℚ(√2): concrete amplitude field for evaluation -/

/-- The field ℚ(√2), represented as `a + b·√2` with `a b : ℚ`.  All
amplitudes arising in the two notebooks live here. -/
@[ext]
structure Q2 where
  a : ℚ
  b : ℚ
deriving DecidableEq, Repr

instance : Zero Q2 := ⟨⟨0, 0⟩⟩

instance : One Q2 := ⟨⟨1, 0⟩⟩

instance : Add Q2 := ⟨fun x y => ⟨x.a + y.a, x.b + y.b⟩⟩

instance : Neg Q2 := ⟨fun x => ⟨-x.a, -x.b⟩⟩

instance : Mul Q2 := ⟨fun x y => ⟨x.a * y.a + 2 * (x.b * y.b), x.a * y.b + x.b * y.a⟩⟩

theorem Q2.zero_a : (0 : Q2).a = 0 := rfl

theorem Q2.zero_b : (0 : Q2).b = 0 := rfl

theorem Q2.one_a : (1 : Q2).a = 1 := rfl

theorem Q2.one_b : (1 : Q2).b = 0 := rfl

theorem Q2.add_a (x y : Q2) : (x + y).a = x.a + y.a := rfl

theorem Q2.add_b (x y : Q2) : (x + y).b = x.b + y.b := rfl

theorem Q2.neg_a (x : Q2) : (-x).a = -x.a := rfl

theorem Q2.neg_b (x : Q2) : (-x).b = -x.b := rfl

theorem Q2.mul_a (x y : Q2) : (x * y).a = x.a * y.a + 2 * (x.b * y.b) := rfl

theorem Q2.mul_b (x y : Q2) : (x * y).b = x.a * y.b + x.b * y.a := rfl

instance : CommRing Q2 where
  nsmul n x := ⟨n * x.a, n * x.b⟩
  nsmul_zero x := by
    ext <;> simp [Q2.zero_a, Q2.zero_b]
  nsmul_succ n x := by
    ext <;> simp [Q2.add_a, Q2.add_b] <;> ring
  zsmul n x := ⟨n * x.a, n * x.b⟩
  zsmul_zero' x := by
    ext <;> simp [Q2.zero_a, Q2.zero_b]
  zsmul_succ' n x := by
    ext <;> simp [Q2.add_a, Q2.add_b] <;> ring
  zsmul_neg' n x := by
    ext <;> simp [Q2.neg_a, Q2.neg_b] <;> ring
  add_assoc x y z := by
    ext <;> simp [Q2.add_a, Q2.add_b] <;> ring
  zero_add x := by
    ext <;> simp [Q2.add_a, Q2.add_b, Q2.zero_a, Q2.zero_b]
  add_zero x := by
    ext <;> simp [Q2.add_a, Q2.add_b, Q2.zero_a, Q2.zero_b]
  add_comm x y := by
    ext <;> simp [Q2.add_a, Q2.add_b] <;> ring
  left_distrib x y z := by
    ext <;> simp [Q2.mul_a, Q2.mul_b, Q2.add_a, Q2.add_b] <;> ring
  right_distrib x y z := by
    ext <;> simp [Q2.mul_a, Q2.mul_b, Q2.add_a, Q2.add_b] <;> ring
  zero_mul x := by
    ext <;> simp [Q2.mul_a, Q2.mul_b, Q2.zero_a, Q2.zero_b]
  mul_zero x := by
    ext <;> simp [Q2.mul_a, Q2.mul_b, Q2.zero_a, Q2.zero_b]
  mul_assoc x y z := by
    ext <;> simp [Q2.mul_a, Q2.mul_b] <;> ring
  one_mul x := by
    ext <;> simp [Q2.mul_a, Q2.mul_b, Q2.one_a, Q2.one_b]
  mul_one x := by
    ext <;> simp [Q2.mul_a, Q2.mul_b, Q2.one_a, Q2.one_b]
  mul_comm x y := by
    ext <;> simp [Q2.mul_a, Q2.mul_b] <;> ring
  neg_add_cancel x := by
    ext <;> simp [Q2.add_a, Q2.add_b, Q2.neg_a, Q2.neg_b, Q2.zero_a, Q2.zero_b]

/-- The element 1/√2 of ℚ(√2), written as (1/2)·√2. -/
def invSqrt2 : Q2 := ⟨0, 1/2⟩

theorem invSqrt2_spec : invSqrt2 * invSqrt2 + invSqrt2 * invSqrt2 = 1 := by
  apply Q2.ext <;>
    norm_num [invSqrt2, Q2.mul_a, Q2.mul_b, Q2.add_a, Q2.add_b, Q2.one_a, Q2.one_b]

/-! ## Evaluation of the three circuits on their initial states

The computations below are carried out over an arbitrary commutative
ring `K` with an element `s` satisfying `s·s + s·s = 1` (the defining
equation of 1/√2; both ℝ with 1/√2 and ℚ(√2) with `invSqrt2` satisfy
it), so they hold in particular for the standard complex state-vector
semantics. -/

/-- Running the full error-correction gate sequence (|0⟩ variant) on
the all-zero initial state yields exactly the basis state |110⟩
(qubit 0 back at 0, ancillas at 1): index 6. -/
theorem ec0_run (K : Type) [CommRing K] (s : K) (hs : s * s + s * s = 1) :
    ∀ i < 8, runGates s phaseFlipCircuit0.gates (basisState 0) i = basisState 6 i := by
  intro i hi
  interval_cases i <;>
    simp +decide [runGates, phaseFlipCircuit0, applyGate,
      basisState, nbit, flipBit, List.foldl] <;>
    first
      | ring1
      | linear_combination (4 * s ^ 4 + 2 * s ^ 2 + 1) * hs

/-- Running the full error-correction gate sequence with the initial
X flip (|1⟩ variant) on the all-zero initial state yields exactly the
basis state |111⟩ (qubit 0 restored to 1, ancillas at 1): index 7. -/
theorem ec1_run (K : Type) [CommRing K] (s : K) (hs : s * s + s * s = 1) :
    ∀ i < 8, runGates s phaseFlipCircuit1.gates (basisState 0) i = basisState 7 i := by
  intro i hi
  interval_cases i <;>
    simp +decide [runGates, phaseFlipCircuit1, applyGate,
      basisState, nbit, flipBit, List.foldl] <;>
    first
      | ring1
      | linear_combination (4 * s ^ 4 + 2 * s ^ 2 + 1) * hs

/-- Running the Grover gate sequence on the all-zero initial state
yields exactly the basis state |11⟩: index 3, with amplitude exactly 1
(global phase +1). -/
theorem grover_run (K : Type) [CommRing K] (s : K) (hs : s * s + s * s = 1) :
    ∀ i < 4, runGates s groverCircuit.gates (basisState 0) i = basisState 3 i := by
  intro i hi
  interval_cases i <;>
    simp +decide [runGates, groverCircuit, state_prep, addEach, addGate, applyGate,
      basisState, nbit, flipBit, List.foldl] <;>
    first
      | ring1
      | linear_combination (4 * s ^ 4 + 2 * s ^ 2 + 1) * hs

/-! ## Readout: measurement distribution and sampling -/

/-- Probability that measuring qubit `q` of an `n`-qubit state `v`
(real amplitudes in ℚ(√2)) writes bit `b` into the classical slot:
the sum of the squared amplitudes of the basis states whose bit `q`
is `b`. -/
def measBitProb (n q : ℕ) (b : Bool) (v : ℕ → Q2) : Q2 :=
  ((List.range (2 ^ n)).map fun i => if nbit q i = b then v i * v i else 0).sum

/-- Probability of observing basis outcome `o` when all qubits of a
state with real amplitudes are measured. -/
def fullProb (v : ℕ → Q2) (o : ℕ) : Q2 := v o * v o

/-- Pre-measurement state of the error-correction circuit, |0⟩ variant. -/
def ecFinal0 : ℕ → Q2 := runGates invSqrt2 phaseFlipCircuit0.gates (basisState 0)

/-- Pre-measurement state of the error-correction circuit, |1⟩ variant. -/
def ecFinal1 : ℕ → Q2 := runGates invSqrt2 phaseFlipCircuit1.gates (basisState 0)

/-- Final state of the Grover circuit. -/
def groverFinal : ℕ → Q2 := runGates invSqrt2 groverCircuit.gates (basisState 0)

theorem ecFinal0_pt : ∀ i < 8, ecFinal0 i = basisState 6 i :=
  ec0_run Q2 invSqrt2 invSqrt2_spec

theorem ecFinal1_pt : ∀ i < 8, ecFinal1 i = basisState 7 i :=
  ec1_run Q2 invSqrt2 invSqrt2_spec

theorem groverFinal_pt : ∀ i < 4, groverFinal i = basisState 3 i :=
  grover_run Q2 invSqrt2 invSqrt2_spec

theorem Q2.oneNeZero : (1 : Q2) ≠ 0 := by
  intro h
  have ha := congrArg Q2.a h
  rw [Q2.one_a, Q2.zero_a] at ha
  exact (one_ne_zero : (1 : ℚ) ≠ 0) ha

theorem measProb_ec0_false : measBitProb 3 0 false ecFinal0 = 1 := by
  simp +decide [measBitProb, List.range_succ, nbit, basisState,
    ecFinal0_pt 0 (by norm_num), ecFinal0_pt 1 (by norm_num),
    ecFinal0_pt 2 (by norm_num), ecFinal0_pt 3 (by norm_num),
    ecFinal0_pt 4 (by norm_num), ecFinal0_pt 5 (by norm_num),
    ecFinal0_pt 6 (by norm_num), ecFinal0_pt 7 (by norm_num)]

theorem measProb_ec0_true : measBitProb 3 0 true ecFinal0 = 0 := by
  simp +decide [measBitProb, List.range_succ, nbit, basisState,
    ecFinal0_pt 0 (by norm_num), ecFinal0_pt 1 (by norm_num),
    ecFinal0_pt 2 (by norm_num), ecFinal0_pt 3 (by norm_num),
    ecFinal0_pt 4 (by norm_num), ecFinal0_pt 5 (by norm_num),
    ecFinal0_pt 6 (by norm_num), ecFinal0_pt 7 (by norm_num)]

theorem measProb_ec1_true : measBitProb 3 0 true ecFinal1 = 1 := by
  simp +decide [measBitProb, List.range_succ, nbit, basisState,
    ecFinal1_pt 0 (by norm_num), ecFinal1_pt 1 (by norm_num),
    ecFinal1_pt 2 (by norm_num), ecFinal1_pt 3 (by norm_num),
    ecFinal1_pt 4 (by norm_num), ecFinal1_pt 5 (by norm_num),
    ecFinal1_pt 6 (by norm_num), ecFinal1_pt 7 (by norm_num)]

theorem measProb_ec1_false : measBitProb 3 0 false ecFinal1 = 0 := by
  simp +decide [measBitProb, List.range_succ, nbit, basisState,
    ecFinal1_pt 0 (by norm_num), ecFinal1_pt 1 (by norm_num),
    ecFinal1_pt 2 (by norm_num), ecFinal1_pt 3 (by norm_num),
    ecFinal1_pt 4 (by norm_num), ecFinal1_pt 5 (by norm_num),
    ecFinal1_pt 6 (by norm_num), ecFinal1_pt 7 (by norm_num)]

theorem fullProb_grover_3 : fullProb groverFinal 3 = 1 := by
  simp [fullProb, groverFinal_pt 3 (by norm_num), basisState]

theorem fullProb_grover_ne3 : ∀ o < 4, o ≠ 3 → fullProb groverFinal o = 0 := by
  intro o ho hne
  interval_cases o
  · simp [fullProb, groverFinal_pt 0 (by norm_num), basisState]
  · simp [fullProb, groverFinal_pt 1 (by norm_num), basisState]
  · simp [fullProb, groverFinal_pt 2 (by norm_num), basisState]
  · exact absurd rfl hne

/-- In the |0⟩ variant, any classical-bit value of nonzero probability
is 0. -/
theorem ec0_support : ∀ b : Bool, measBitProb 3 0 b ecFinal0 ≠ 0 → b = false := by
  intro b hb
  cases b
  · rfl
  · exact absurd measProb_ec0_true hb

/-- In the |1⟩ variant, any classical-bit value of nonzero probability
is 1. -/
theorem ec1_support : ∀ b : Bool, measBitProb 3 0 b ecFinal1 ≠ 0 → b = true := by
  intro b hb
  cases b
  · exact absurd measProb_ec1_false hb
  · rfl

/-- In the Grover circuit, any 2-qubit outcome of nonzero probability
is the marked state |11⟩ = index 3. -/
theorem grover_support : ∀ o : ℕ, o < 4 → fullProb groverFinal o ≠ 0 → o = 3 := by
  intro o ho hne
  by_contra h
  exact hne (fullProb_grover_ne3 o ho h)

/-- Tallying a sample list all of whose elements equal `x`: the count
of `x` is the sample size and every other outcome has count 0. -/
theorem count_of_constant {α : Type} [DecidableEq α] (x : α) (l : List α)
    (hl : ∀ y ∈ l, y = x) :
    l.count x = l.length ∧ ∀ y, y ≠ x → l.count y = 0 := by
  induction l with
  | nil => simp
  | cons hd tl ih =>
    have hhd : hd = x := hl hd (by simp)
    have htl : ∀ y ∈ tl, y = x := fun y hy => hl y (by simp [hy])
    obtain ⟨h1, h2⟩ := ih htl
    subst hhd
    refine ⟨by simp [List.count_cons, h1], ?_⟩
    intro y hy
    simp [List.count_cons, h2 y hy, Ne.symm hy]

/-! ## Static structure: operand bounds and the spec's step list -/

/-- The qubit indices referenced by a gate record. -/
def gateQubits : Gate → List ℕ
  | Gate.x q => [q]
  | Gate.h q => [q]
  | Gate.z q => [q]
  | Gate.cx c t => [c, t]
  | Gate.cz a b => [a, b]
  | Gate.ccx c1 c2 t => [c1, c2, t]
  | Gate.measure q _ => [q]

/-- The classical indices referenced (written) by a gate record. -/
def gateClbits : Gate → List ℕ
  | Gate.measure _ c => [c]
  | _ => []

/-- Every gate of the circuit references only in-bounds quantum and
classical register indices. -/
def wellFormed (c : Circuit) : Bool :=
  c.gates.all fun g =>
    (gateQubits g).all (fun q => decide (q < c.numQubits)) &&
    (gateClbits g).all (fun b => decide (b < c.numClbits))

/-- The spec's §4.1 step list (a)–(g), written from the spec's words:
(a) two controlled-NOT entangling gates from qubit 0 onto qubits 1 and
2; (b) a Hadamard on each of the three qubits; (c) a Z gate on qubit
0; (d) a second Hadamard on each of the three qubits; (e) the same two
CNOTs as in (a); (f) a Toffoli controlled by qubits 1 and 2 with
target qubit 0; (g) measurement of qubit 0 into classical bit 0. -/
def specPhaseFlipSteps : List Gate :=
  [Gate.cx 0 1, Gate.cx 0 2,
   Gate.h 0, Gate.h 1, Gate.h 2,
   Gate.z 0,
   Gate.h 0, Gate.h 1, Gate.h 2,
   Gate.cx 0 1, Gate.cx 0 2,
   Gate.ccx 2 1 0,
   Gate.measure 0 0]

/-! ## Execution pipelines

The notebooks execute circuits through an external library (`execute`,
`job_monitor`, `job.result().get_counts()`, and for the Grover demo
`transpile` and `device.run`).  Those operations belong to the
external collaborator and are modelled as opaque fallible functions
(fields of a record, in the `Except` monad); the pipelines below are
transcriptions of the notebook cells that call them in sequence, with
no validation before the calls and no handler around them. -/

/-- The external backend interface used by the error-correction cells:
`execute(circuit, backend, shots)`, `job_monitor(job)`,
`job.result()`, `result.get_counts()`. -/
structure BackendAPI (ε Job Res Counts : Type) where
  execute : Circuit → ℕ → Except ε Job
  jobMonitor : Job → Except ε Unit
  result : Job → Except ε Res
  getCounts : Res → Except ε Counts

/-- Transcription of the error-correction execution cell:
`job = execute(circuit, backend, shots=1000); job_monitor(job);
counts = job.result().get_counts()`. -/
def ecExecution {ε Job Res Counts : Type} (B : BackendAPI ε Job Res Counts)
    (c : Circuit) (shots : ℕ) : Except ε Counts :=
  (B.execute c shots).bind fun job =>
    (B.jobMonitor job).bind fun _ =>
      (B.result job).bind fun res =>
        B.getCounts res

/-- The external device interface used by the Grover cells:
`transpile(circuit, device, ...)`, `device.run(circuit)`,
`job_monitor(job)`, `job.result()`, `results.get_counts(circuit)`. -/
structure DeviceAPI (ε Job Res Counts : Type) where
  transpile : Circuit → Except ε Circuit
  run : Circuit → Except ε Job
  jobMonitor : Job → Except ε Unit
  result : Job → Except ε Res
  getCounts : Res → Except ε Counts

/-- Transcription of the Grover execution cells:
`transpiled_grover_circuit = transpile(circuit, device,
optimization_level=3); job = device.run(transpiled_grover_circuit);
job_monitor(job, interval=2); results = job.result();
answer = results.get_counts(circuit)`. -/
def groverExecution {ε Job Res Counts : Type} (D : DeviceAPI ε Job Res Counts)
    (c : Circuit) : Except ε Counts :=
  (D.transpile c).bind fun t =>
    (D.run t).bind fun job =>
      (D.jobMonitor job).bind fun _ =>
        (D.result job).bind fun res =>
          D.getCounts res

/-! ## Claims -/

/-- C1: for the error-correction circuit with qubit 0 initialized to
logical 0 (all three qubits start at |0⟩), the measured classical bit
is 0 in every trial: the outcome 0 has probability 1, the outcome 1
has probability 0, and for any number of shots, every sample list
drawn from the readout distribution (each drawn outcome has nonzero
probability) tallies to the distribution {'0': shots}. -/
theorem claim_C1 :
    measBitProb 3 0 false ecFinal0 = 1 ∧
    measBitProb 3 0 true ecFinal0 = 0 ∧
    ∀ shots : ℕ, ∀ os : List Bool, os.length = shots →
      (∀ b ∈ os, measBitProb 3 0 b ecFinal0 ≠ 0) →
      os.count false = shots ∧ os.count true = 0 := by
  refine ⟨measProb_ec0_false, measProb_ec0_true, ?_⟩
  intro shots os hlen hsup
  obtain ⟨h1, h2⟩ :=
    count_of_constant false os (fun y hy => ec0_support y (hsup y hy))
  exact ⟨hlen ▸ h1, h2 true (by simp)⟩

theorem claim_C1_witness :
    ([false, false] : List Bool).count false = 2 ∧
    ([false, false] : List Bool).count true = 0 :=
  claim_C1.2.2 2 [false, false] rfl (by
    intro b hb
    have hb' : b = false := by simpa using hb
    subst hb'
    rw [measProb_ec0_false]
    exact Q2.oneNeZero)

/-- C2: for the error-correction circuit with qubit 0 pre-flipped to
logical 1 by an X gate before the entangling step, the measured
classical bit is 1 in every trial: outcome 1 has probability 1,
outcome 0 has probability 0, and every sample of any number of shots
drawn from the readout distribution tallies to {'1': shots}. -/
theorem claim_C2 :
    measBitProb 3 0 true ecFinal1 = 1 ∧
    measBitProb 3 0 false ecFinal1 = 0 ∧
    ∀ shots : ℕ, ∀ os : List Bool, os.length = shots →
      (∀ b ∈ os, measBitProb 3 0 b ecFinal1 ≠ 0) →
      os.count true = shots ∧ os.count false = 0 := by
  refine ⟨measProb_ec1_true, measProb_ec1_false, ?_⟩
  intro shots os hlen hsup
  obtain ⟨h1, h2⟩ :=
    count_of_constant true os (fun y hy => ec1_support y (hsup y hy))
  exact ⟨hlen ▸ h1, h2 false (by simp)⟩

theorem claim_C2_witness :
    ([true, true] : List Bool).count true = 2 ∧
    ([true, true] : List Bool).count false = 0 :=
  claim_C2.2.2 2 [true, true] rfl (by
    intro b hb
    have hb' : b = true := by simpa using hb
    subst hb'
    rw [measProb_ec1_true]
    exact Q2.oneNeZero)

/-- C3: after the full two-qubit Grover circuit (H on both qubits,
CZ oracle, then the diffusion sequence), the probability of measuring
the marked state '11' (basis index 3) equals 1 — in particular it is
strictly greater than the uniform baseline 1/4 (the probability is
the rational number 1: its ℚ(√2) value has zero √2-part) — and the
final state is exactly |11⟩ up to global phase (here with phase +1):
the amplitudes on indices 0..3 are 0, 0, 0, 1. -/
theorem claim_C3 :
    fullProb groverFinal 3 = 1 ∧
    (fullProb groverFinal 3).b = 0 ∧
    1 / 4 < (fullProb groverFinal 3).a ∧
    (List.range 4).map groverFinal = [0, 0, 0, 1] := by
  refine ⟨fullProb_grover_3, ?_, ?_, ?_⟩
  · rw [fullProb_grover_3, Q2.one_b]
  · rw [fullProb_grover_3, Q2.one_a]
    norm_num
  · simp [List.range_succ, basisState,
      groverFinal_pt 0 (by norm_num), groverFinal_pt 1 (by norm_num),
      groverFinal_pt 2 (by norm_num), groverFinal_pt 3 (by norm_num)]

/-- C4: sampling the Grover circuit for 1000 trials from the ideal
(noiseless) readout distribution yields the marked outcome '11'
(index 3) with relative frequency at least 0.95 — in fact exactly
1000/1000 — and all unmarked outcomes ('00', '01', '10') combined
with relative frequency at most 0.05 — in fact 0. -/
theorem claim_C4 :
    ∀ os : List ℕ, os.length = 1000 →
      (∀ o ∈ os, o < 4 ∧ fullProb groverFinal o ≠ 0) →
      os.count 3 = 1000 ∧ 950 ≤ os.count 3 ∧
      os.count 0 + os.count 1 + os.count 2 ≤ 50 := by
  intro os hlen hsup
  obtain ⟨h1, h2⟩ :=
    count_of_constant 3 os
      (fun y hy => grover_support y (hsup y hy).1 (hsup y hy).2)
  rw [hlen] at h1
  refine ⟨h1, by omega, ?_⟩
  rw [h2 0 (by norm_num), h2 1 (by norm_num), h2 2 (by norm_num)]
  norm_num

theorem claim_C4_witness :
    (List.replicate 1000 3).count 3 = 1000 ∧
    950 ≤ (List.replicate 1000 3).count 3 ∧
    (List.replicate 1000 3).count 0 + (List.replicate 1000 3).count 1 +
      (List.replicate 1000 3).count 2 ≤ 50 :=
  claim_C4 (List.replicate 1000 3) (by rw [List.length_replicate]) (by
    intro o ho
    have ho' : o = 3 := List.eq_of_mem_replicate ho
    subst ho'
    refine ⟨by norm_num, ?_⟩
    rw [fullProb_grover_3]
    exact Q2.oneNeZero)

/-- C5: the constructed error-correction circuit has exactly the fixed
structure of the spec's step list (a)–(g), bit for bit: its gate list
equals the spec-side step list (same gate kinds and operands in the
same order, and nothing else), on a 3-qubit quantum register with a
1-bit classical register. -/
theorem claim_C5 :
    phaseFlipCircuit0.gates = specPhaseFlipSteps ∧
    phaseFlipCircuit0.numQubits = 3 ∧ phaseFlipCircuit0.numClbits = 1 :=
  ⟨rfl, rfl, rfl⟩

/-- C6: for every initial single-qubit state α|0⟩ + β|1⟩ on qubit 0
(ancillas at |0⟩), over any commutative ring of amplitudes with an
element `s` standing for 1/√2 (s·s + s·s = 1), the unitary part of
the error-correction circuit (all gates before the measurement,
including the injected Z error) maps the initial amplitude vector
(α at index 0 = |000⟩, β at index 1 = |001⟩) exactly to α at index
6 = |110⟩ and β at index 7 = |111⟩: qubit 0 is restored to
α|0⟩ + β|1⟩, unentangled from the ancillas, which end in |11⟩. -/
theorem claim_C6 (K : Type) [CommRing K] (s α β : K) (hs : s * s + s * s = 1) :
    ∀ i < 8, runGates s (unitaryPart phaseFlipCircuit0)
        (fun j => if j = 0 then α else if j = 1 then β else 0) i
      = (if i = 6 then α else if i = 7 then β else 0) := by
  intro i hi
  interval_cases i <;>
    simp +decide [runGates, unitaryPart, phaseFlipCircuit0, isMeasurement, applyGate,
      nbit, flipBit, List.foldl, List.filter] <;>
    first
      | ring1
      | linear_combination (4 * s ^ 4 + 2 * s ^ 2 + 1) * α * hs
      | linear_combination (4 * s ^ 4 + 2 * s ^ 2 + 1) * β * hs

theorem claim_C6_witness :
    (invSqrt2 * invSqrt2 + invSqrt2 * invSqrt2 = 1) ∧ 6 < 8 ∧
    runGates invSqrt2 (unitaryPart phaseFlipCircuit0)
        (fun j => if j = 0 then invSqrt2 else if j = 1 then (1 : Q2) else 0) 6
      = (if 6 = 6 then invSqrt2 else if 6 = 7 then (1 : Q2) else 0) :=
  ⟨invSqrt2_spec, by norm_num,
   claim_C6 Q2 invSqrt2 invSqrt2 1 invSqrt2_spec 6 (by norm_num)⟩

/-- C7: the constructed Grover circuit is a 2-qubit circuit with no
classical bits and no measurement operation: its complete construction
appends exactly the ten unitary gate applications H 0, H 1, CZ(0,1),
H 0, H 1, Z 0, Z 1, CZ(0,1), H 0, H 1 and nothing else, so no gate of
this pipeline writes a classical slot (every gate references zero
classical indices). -/
theorem claim_C7 :
    groverCircuit.numQubits = 2 ∧
    groverCircuit.numClbits = 0 ∧
    groverCircuit.gates =
      [Gate.h 0, Gate.h 1, Gate.cz 0 1, Gate.h 0, Gate.h 1,
       Gate.z 0, Gate.z 1, Gate.cz 0 1, Gate.h 0, Gate.h 1] ∧
    groverCircuit.gates.length = 10 ∧
    groverCircuit.gates.all (fun g => !isMeasurement g) = true ∧
    groverCircuit.gates.all (fun g => (gateClbits g).isEmpty) = true := by
  decide

/-- C8: re-running either demonstration circuit with the same inputs
(same circuit, same noiseless backend model, same shot count) yields
the same aggregate outcome distribution both times: any two sample
lists of equal length drawn from the circuit's readout distribution
(every drawn outcome has nonzero probability) have identical tallies
for every outcome, for the |0⟩ error-correction run, the |1⟩
error-correction run, and the Grover run. -/
theorem claim_C8 :
    (∀ os₁ os₂ : List Bool, os₁.length = os₂.length →
      (∀ b ∈ os₁, measBitProb 3 0 b ecFinal0 ≠ 0) →
      (∀ b ∈ os₂, measBitProb 3 0 b ecFinal0 ≠ 0) →
      ∀ b, os₁.count b = os₂.count b) ∧
    (∀ os₁ os₂ : List Bool, os₁.length = os₂.length →
      (∀ b ∈ os₁, measBitProb 3 0 b ecFinal1 ≠ 0) →
      (∀ b ∈ os₂, measBitProb 3 0 b ecFinal1 ≠ 0) →
      ∀ b, os₁.count b = os₂.count b) ∧
    (∀ os₁ os₂ : List ℕ, os₁.length = os₂.length →
      (∀ o ∈ os₁, o < 4 ∧ fullProb groverFinal o ≠ 0) →
      (∀ o ∈ os₂, o < 4 ∧ fullProb groverFinal o ≠ 0) →
      ∀ o, os₁.count o = os₂.count o) := by
  refine ⟨?_, ?_, ?_⟩
  · intro os₁ os₂ hlen hs1 hs2 b
    obtain ⟨c1, d1⟩ :=
      count_of_constant false os₁ (fun y hy => ec0_support y (hs1 y hy))
    obtain ⟨c2, d2⟩ :=
      count_of_constant false os₂ (fun y hy => ec0_support y (hs2 y hy))
    cases b
    · rw [c1, c2, hlen]
    · rw [d1 true (by simp), d2 true (by simp)]
  · intro os₁ os₂ hlen hs1 hs2 b
    obtain ⟨c1, d1⟩ :=
      count_of_constant true os₁ (fun y hy => ec1_support y (hs1 y hy))
    obtain ⟨c2, d2⟩ :=
      count_of_constant true os₂ (fun y hy => ec1_support y (hs2 y hy))
    cases b
    · rw [d1 false (by simp), d2 false (by simp)]
    · rw [c1, c2, hlen]
  · intro os₁ os₂ hlen hs1 hs2 o
    obtain ⟨c1, d1⟩ :=
      count_of_constant 3 os₁
        (fun y hy => grover_support y (hs1 y hy).1 (hs1 y hy).2)
    obtain ⟨c2, d2⟩ :=
      count_of_constant 3 os₂
        (fun y hy => grover_support y (hs2 y hy).1 (hs2 y hy).2)
    by_cases ho : o = 3
    · subst ho
      rw [c1, c2, hlen]
    · rw [d1 o ho, d2 o ho]

theorem claim_C8_witness :
    ([false, false] : List Bool).count true = ([false] : List Bool).count true + 0 := by
  have h := claim_C8.1 [false, false] [false, false] rfl
    (by
      intro b hb
      have hb' : b = false := by simpa using hb
      subst hb'
      rw [measProb_ec0_false]
      exact Q2.oneNeZero)
    (by
      intro b hb
      have hb' : b = false := by simpa using hb
      subst hb'
      rw [measProb_ec0_false]
      exact Q2.oneNeZero)
    true
  simp at h ⊢

/-- C9: any failure raised by the external backend at any stage of
either execution pipeline propagates unchanged as the pipeline's
terminal result — there is no validation before the calls, no retry
and no recovery after them — and when every stage succeeds, the
pipeline returns exactly the backend's counts. -/
theorem claim_C9 (ε Job Res Counts : Type) (B : BackendAPI ε Job Res Counts)
    (D : DeviceAPI ε Job Res Counts) (c : Circuit) (shots : ℕ) (e : ε) :
    (B.execute c shots = Except.error e →
      ecExecution B c shots = Except.error e) ∧
    (∀ j, B.execute c shots = Except.ok j → B.jobMonitor j = Except.error e →
      ecExecution B c shots = Except.error e) ∧
    (∀ j, B.execute c shots = Except.ok j → B.jobMonitor j = Except.ok () →
      B.result j = Except.error e → ecExecution B c shots = Except.error e) ∧
    (∀ j r, B.execute c shots = Except.ok j → B.jobMonitor j = Except.ok () →
      B.result j = Except.ok r → ecExecution B c shots = B.getCounts r) ∧
    (D.transpile c = Except.error e → groverExecution D c = Except.error e) ∧
    (∀ t, D.transpile c = Except.ok t → D.run t = Except.error e →
      groverExecution D c = Except.error e) ∧
    (∀ t j, D.transpile c = Except.ok t → D.run t = Except.ok j →
      D.jobMonitor j = Except.error e → groverExecution D c = Except.error e) ∧
    (∀ t j, D.transpile c = Except.ok t → D.run t = Except.ok j →
      D.jobMonitor j = Except.ok () → D.result j = Except.error e →
      groverExecution D c = Except.error e) ∧
    (∀ t j r, D.transpile c = Except.ok t → D.run t = Except.ok j →
      D.jobMonitor j = Except.ok () → D.result j = Except.ok r →
      groverExecution D c = D.getCounts r) := by
  refine ⟨?_, ?_, ?_, ?_, ?_, ?_, ?_, ?_, ?_⟩
  · intro h1
    simp [ecExecution, h1, Except.bind]
  · intro j h1 h2
    simp [ecExecution, h1, h2, Except.bind]
  · intro j h1 h2 h3
    simp [ecExecution, h1, h2, h3, Except.bind]
  · intro j r h1 h2 h3
    simp [ecExecution, h1, h2, h3, Except.bind]
  · intro h1
    simp [groverExecution, h1, Except.bind]
  · intro t h1 h2
    simp [groverExecution, h1, h2, Except.bind]
  · intro t j h1 h2 h3
    simp [groverExecution, h1, h2, h3, Except.bind]
  · intro t j h1 h2 h3 h4
    simp [groverExecution, h1, h2, h3, h4, Except.bind]
  · intro t j r h1 h2 h3 h4
    simp [groverExecution, h1, h2, h3, h4, Except.bind]

theorem claim_C9_witness :
    ecExecution
      ({ execute := fun _ _ => Except.error 7
         jobMonitor := fun _ => Except.ok ()
         result := fun _ => Except.ok 0
         getCounts := fun n => Except.ok n } : BackendAPI ℕ ℕ ℕ ℕ)
      phaseFlipCircuit0 1000 = Except.error 7 ∧
    groverExecution
      ({ transpile := fun c => Except.ok c
         run := fun _ => Except.ok 5
         jobMonitor := fun _ => Except.ok ()
         result := fun _ => Except.ok 4
         getCounts := fun n => Except.ok n } : DeviceAPI ℕ ℕ ℕ ℕ)
      groverCircuit = Except.ok 4 :=
  ⟨(claim_C9 ℕ ℕ ℕ ℕ
      { execute := fun _ _ => Except.error 7
        jobMonitor := fun _ => Except.ok ()
        result := fun _ => Except.ok 0
        getCounts := fun n => Except.ok n }
      { transpile := fun c => Except.ok c
        run := fun _ => Except.ok 5
        jobMonitor := fun _ => Except.ok ()
        result := fun _ => Except.ok 4
        getCounts := fun n => Except.ok n }
      phaseFlipCircuit0 1000 7).1 rfl,
   (claim_C9 ℕ ℕ ℕ ℕ
      { execute := fun _ _ => Except.error 7
        jobMonitor := fun _ => Except.ok ()
        result := fun _ => Except.ok 0
        getCounts := fun n => Except.ok n }
      { transpile := fun c => Except.ok c
        run := fun _ => Except.ok 5
        jobMonitor := fun _ => Except.ok ()
        result := fun _ => Except.ok 4
        getCounts := fun n => Except.ok n }
      groverCircuit 1000 7).2.2.2.2.2.2.2.2 groverCircuit 5 4 rfl rfl rfl rfl⟩

/-- C10: every gate and measurement appended in either demonstration
references only in-bounds register indices — in the error-correction
circuits every gate operand is a qubit index below 3 and the single
measurement writes classical index 0 of the 1-bit register; in the
Grover circuit every gate operand is a qubit index below 2 — so the
out-of-bounds error branch of every indexed operation is unreachable. -/
theorem claim_C10 :
    wellFormed phaseFlipCircuit0 = true ∧
    wellFormed phaseFlipCircuit1 = true ∧
    wellFormed groverCircuit = true := by
  decide

end QuantumCourse
